import Mathlib

/-!
Verification of the caching subsystem of the express-typescript-boiler
repository against its specification.

The development shallowly embeds, in order:
- the pure cache-key derivation functions of `CacheKeyGenerator`
  (source: `src/utils/cache-key.util.ts`),
- the Redis-backed `CacheService` (connection flag, key prefixing,
  get/set/delete/deletePattern/exists/flush with uniform error handling;
  source: `src/services/cache.service.ts`),
- the cache-aside `UserRepository` mutation paths (`create`/`update`/`delete`
  with their invalidation helpers; source: `src/repositories/user.repository.ts`).

JavaScript-specific semantics are modelled explicitly: numbers use `Int` with
JS truthiness (`0` falsy), optional values use `Option` (`none` models
`undefined`/`null`), strings use JS truthiness (`""` falsy), and fallible
backend calls return `Except`/`Option` values which the service code catches.
-/

/-- JS truthiness for an optional number: `undefined` and `0` are falsy. -/
def truthyNum : Option Int → Bool
  | none => false
  | some n => decide (n ≠ 0)

/-- JS truthiness for an optional string: `undefined` and `""` are falsy. -/
def truthyStr : Option String → Bool
  | none => false
  | some s => decide (s ≠ "")

/-- JS number-to-string interpolation of an optional number
(only ever applied to truthy values in the embedded code). -/
def numStr : Option Int → String
  | none => ""
  | some n => toString n

/-- Models JavaScript `Array.prototype.join(':')`, used by the key generators
(`parts.join(':')`). -/
def joinColon : List String → String
  | [] => ""
  | [p] => p
  | p :: q :: rest => p ++ ":" ++ joinColon (q :: rest)

/-- Association-list lookup, modelling JS object property access
(`obj[key]`); JS objects have unique keys, the first binding wins. -/
def alookup {β : Type} : List (String × β) → String → Option β
  | [], _ => none
  | (k', v) :: rest, k => if k' = k then some v else alookup rest k

/-- Models the `PaginationParams` interface of `cache-key.util.ts`
(`page?: number; limit?: number`). -/
structure PaginationParams where
  page : Option Int
  limit : Option Int
  deriving DecidableEq

/-- Filter maps (`Record<string, any>`) are modelled as association lists with
`Option String` values: `none` models a `null`/`undefined` entry (skipped by
the generator), `some s` models any other value after JS `String(·)`. -/
abbrev FilterMap := List (String × Option String)

/-- Lexicographic comparison of char lists, the order used by the default
`Array.prototype.sort` comparator on strings (code-unit lexicographic). -/
def charListLe : List Char → List Char → Bool
  | [], _ => true
  | _ :: _, [] => false
  | a :: as, b :: bs => if a = b then charListLe as bs else decide (a < b)

/-- Lexicographic string order (JS default string comparison). -/
def strLe (a b : String) : Bool := charListLe a.data b.data

/-- Models `Object.keys(filters).sort()`: sorts keys ascending in
lexicographic order. -/
def sortKeys (ks : List String) : List String :=
  List.insertionSort (fun a b => strLe a b = true) ks

/-- Models `CacheKeyGenerator.entityById`: `` `${entityType}:${id}` ``. -/
def CacheKeyGenerator.entityById (entityType : String) (id : String) : String :=
  entityType ++ ":" ++ id

/-- Models `CacheKeyGenerator.entityByField`:
`` `${entityType}:${field}:${value}` ``. -/
def CacheKeyGenerator.entityByField (entityType field value : String) : String :=
  entityType ++ ":" ++ field ++ ":" ++ value

/-- Models the filter loop of `CacheKeyGenerator.entityList`:
`for (const key of filterKeys) if (filters[key] !== undefined && filters[key] !== null) parts.push(key, String(filters[key]))`. -/
def CacheKeyGenerator.filterSegs (filters : FilterMap) : List String → List String
  | [] => []
  | k :: ks =>
    match alookup filters k with
    | some (some v) => k :: v :: CacheKeyGenerator.filterSegs filters ks
    | _ => CacheKeyGenerator.filterSegs filters ks

/-- Models the filter section of `CacheKeyGenerator.entityList`:
`if (filters && Object.keys(filters).length > 0) { const filterKeys = Object.keys(filters).sort(); ... }`. -/
def CacheKeyGenerator.filterParts : Option FilterMap → List String
  | none => []
  | some fs =>
      if fs.isEmpty then []
      else CacheKeyGenerator.filterSegs fs (sortKeys (fs.map Prod.fst))

/-- Models the pagination section of `CacheKeyGenerator.entityList`,
including JS truthiness of `pagination?.page` / `pagination?.limit`. -/
def CacheKeyGenerator.pagePart : Option PaginationParams → List String
  | none => ["all"]
  | some p =>
      if truthyNum p.page && truthyNum p.limit then
        ["page", numStr p.page, "limit", numStr p.limit]
      else if truthyNum p.page || truthyNum p.limit then
        (if truthyNum p.page then ["page", numStr p.page] else []) ++
        (if truthyNum p.limit then ["limit", numStr p.limit] else [])
      else ["all"]

/-- Models `CacheKeyGenerator.entityList`: starts from `[entityType, 'list']`,
appends pagination parts, then sorted filter parts, and joins with `':'`. -/
def CacheKeyGenerator.entityList (entityType : String)
    (pagination : Option PaginationParams) (filters : Option FilterMap) : String :=
  joinColon (entityType :: "list" ::
    (CacheKeyGenerator.pagePart pagination ++ CacheKeyGenerator.filterParts filters))

/-- The string contains no `':'` key-segment separator. -/
def noColon (s : String) : Prop := ':' ∉ s.data

instance (s : String) : Decidable (noColon s) :=
  inferInstanceAs (Decidable (':' ∉ s.data))

/-- Models `CacheService.generateUserKey` (legacy generator used by
`UserRepository`): `` `user:${id}` ``. -/
def CacheService.generateUserKey (id : String) : String := "user:" ++ id

/-- Models `CacheService.generateUsersListKey`, including JS truthiness of
`page && limit`. -/
def CacheService.generateUsersListKey (page limit : Option Int) : String :=
  if truthyNum page && truthyNum limit then
    "users:list:page:" ++ numStr page ++ ":limit:" ++ numStr limit
  else "users:list:all"

/-- Models `CacheService.generateUserByEmailKey`: `` `user:email:${email}` ``. -/
def CacheService.generateUserByEmailKey (email : String) : String :=
  "user:email:" ++ email

/-- A stored Redis entry: the serialized payload and the expiry in seconds it
was written with (`SETEX`). The backend owns expiry; the service only sets it
at write time and never reads it back. -/
structure StoredEntry where
  data : String
  ttl : Int
  deriving DecidableEq

/-- The modelled state of the `CacheService` singleton plus the shared Redis
database: `clientPresent` models `this.client !== null`, `isConnected` models
`this.isConnected`, `keyPref` models `this.keyPrefix` (from
`REDIS_KEY_PREFIX`/`APP_NAME`), `defaultTTL` models `env.CACHE_TTL_SECONDS`,
and `store` is the backend key space, which may also hold keys written by
other processes under other namespace prefixes. -/
structure CacheState where
  clientPresent : Bool
  isConnected : Bool
  keyPref : String
  defaultTTL : Int
  store : List (String × StoredEntry)
  deriving DecidableEq

/-- The guard `!this.client || !this.isConnected` every operation starts
with. -/
def CacheState.unavailable (cs : CacheState) : Bool :=
  !cs.clientPresent || !cs.isConnected

/-- Models `CacheService.getPrefixedKey`: `` `${this.keyPrefix}:${key}` ``. -/
def CacheState.prefKey (cs : CacheState) (key : String) : String :=
  cs.keyPref ++ ":" ++ key

/-- Redis glob matching, restricted to the pattern shapes this codebase ever
passes to `KEYS` — a literal stem followed by one trailing `*` wildcard
(`users:list:*`, `user:*`, `users:*`) or a fully literal pattern. -/
def globMatch (pat key : String) : Bool :=
  match pat.data.getLast? with
  | some '*' => List.isPrefixOf pat.data.dropLast key.data
  | _ => decide (pat = key)

/-- Removal of every binding of `key` (the effect of Redis DEL on one key). -/
def storeErase (store : List (String × StoredEntry)) (key : String) :
    List (String × StoredEntry) :=
  store.filter (fun p => decide (p.1 ≠ key))

/-- Removal of every binding of each key in `keys` (Redis DEL on a list). -/
def storeEraseAll (store : List (String × StoredEntry)) (keys : List String) :
    List (String × StoredEntry) :=
  store.filter (fun p => decide (p.1 ∉ keys))

/-- Redis GET: the stored payload, `none` when absent; `fail` models the
backend call throwing (timeout, connection loss, backend error). -/
def redisGet (store : List (String × StoredEntry)) (key : String) (fail : Bool) :
    Except Unit (Option String) :=
  if fail then .error () else .ok ((alookup store key).map StoredEntry.data)

/-- Redis SETEX: writes the payload with the given expiry, replacing any
previous entry; Redis rejects non-positive expiry seconds with an error. -/
def redisSetEx (store : List (String × StoredEntry)) (key : String) (ttl : Int)
    (payload : String) (fail : Bool) :
    Except Unit (List (String × StoredEntry)) :=
  if fail ∨ ttl ≤ 0 then .error ()
  else .ok ((key, ⟨payload, ttl⟩) :: storeErase store key)

/-- Redis DEL of one key: the count of removed keys and the new store. -/
def redisDel (store : List (String × StoredEntry)) (key : String) (fail : Bool) :
    Except Unit (Nat × List (String × StoredEntry)) :=
  if fail then .error ()
  else .ok (if (alookup store key).isSome then 1 else 0, storeErase store key)

/-- Redis DEL of a key list. -/
def redisDelMany (store : List (String × StoredEntry)) (keys : List String)
    (fail : Bool) : Except Unit (Nat × List (String × StoredEntry)) :=
  if fail then .error ()
  else .ok ((keys.filter (fun k => (alookup store k).isSome)).length,
    storeEraseAll store keys)

/-- Redis KEYS: every key currently matching the glob pattern. -/
def redisKeys (store : List (String × StoredEntry)) (pat : String) (fail : Bool) :
    Except Unit (List String) :=
  if fail then .error ()
  else .ok ((store.filter (fun p => globMatch pat p.1)).map Prod.fst)

/-- Redis EXISTS of one key. -/
def redisExists (store : List (String × StoredEntry)) (key : String) (fail : Bool) :
    Except Unit Nat :=
  if fail then .error () else .ok (if (alookup store key).isSome then 1 else 0)

/-- Redis FLUSHDB: empties the whole selected database. -/
def redisFlushDb (_store : List (String × StoredEntry)) (fail : Bool) :
    Except Unit (List (String × StoredEntry)) :=
  if fail then .error () else .ok []

/-- Models `CacheService.get`: connection guard, prefixed GET, `if (data)`
string truthiness, then `JSON.parse` — modelled by the caller-supplied
`deserialize`, where `none` stands for a parse throw; every error path is
caught and returns `null` (`none`). -/
def CacheService.get {α : Type} (cs : CacheState) (deserialize : String → Option α)
    (key : String) (fail : Bool) : Option α :=
  if cs.unavailable then none
  else
    match redisGet cs.store (cs.prefKey key) fail with
    | .error _ => none
    | .ok (some s) => if s ≠ "" then deserialize s else none
    | .ok none => none

/-- The `ttlSeconds || env.CACHE_TTL_SECONDS` fallback in `CacheService.set`:
JS `||` makes a supplied `0` fall back to the default. -/
def resolveTtl (ttlSeconds : Option Int) (defaultTTL : Int) : Int :=
  match ttlSeconds with
  | some t => if t ≠ 0 then t else defaultTTL
  | none => defaultTTL

/-- Models `CacheService.set`: connection guard, TTL fallback,
`JSON.stringify` (caller-supplied `serialize`), prefixed SETEX; returns
`false` and leaves the backend unchanged when disconnected or when the write
throws. -/
def CacheService.set {α : Type} (cs : CacheState) (serialize : α → String)
    (key : String) (value : α) (ttlSeconds : Option Int) (fail : Bool) :
    Bool × CacheState :=
  if cs.unavailable then (false, cs)
  else
    match redisSetEx cs.store (cs.prefKey key)
        (resolveTtl ttlSeconds cs.defaultTTL) (serialize value) fail with
    | .error _ => (false, cs)
    | .ok store' => (true, { cs with store := store' })

/-- Models `CacheService.delete`: prefixed DEL, then `result > 0`. -/
def CacheService.delete (cs : CacheState) (key : String) (fail : Bool) :
    Bool × CacheState :=
  if cs.unavailable then (false, cs)
  else
    match redisDel cs.store (cs.prefKey key) fail with
    | .error _ => (false, cs)
    | .ok (n, store') => (decide (n > 0), { cs with store := store' })

/-- Models `CacheService.deletePattern`: prefixed KEYS, early return on an
empty match list, then DEL of the matched keys; the two backend calls carry
separate failure flags. -/
def CacheService.deletePattern (cs : CacheState) (pat : String)
    (failKeys failDel : Bool) : Nat × CacheState :=
  if cs.unavailable then (0, cs)
  else
    match redisKeys cs.store (cs.prefKey pat) failKeys with
    | .error _ => (0, cs)
    | .ok keys =>
      if keys.isEmpty then (0, cs)
      else
        match redisDelMany cs.store keys failDel with
        | .error _ => (0, cs)
        | .ok (n, store') => (n, { cs with store := store' })

/-- Models `CacheService.exists` (`exists` then `result === 1`); named
`existsKey` because `exists` is tactic syntax in Lean. -/
def CacheService.existsKey (cs : CacheState) (key : String) (fail : Bool) : Bool :=
  if cs.unavailable then false
  else
    match redisExists cs.store (cs.prefKey key) fail with
    | .error _ => false
    | .ok n => decide (n = 1)

/-- Models `CacheService.flush` (`flushDb()` on the shared database). -/
def CacheService.flush (cs : CacheState) (fail : Bool) : Bool × CacheState :=
  if cs.unavailable then (false, cs)
  else
    match redisFlushDb cs.store fail with
    | .error _ => (false, cs)
    | .ok store' => (true, { cs with store := store' })

/-- Models `CacheService.isReady`. -/
def CacheService.isReady (cs : CacheState) : Bool :=
  cs.isConnected && cs.clientPresent

/-- The user row shape relevant to caching (the repository `select`s more
columns, but only `email` drives secondary-key invalidation; `name` stands in
for the remaining mutable payload). -/
structure UserRec where
  name : String
  email : String
  deriving DecidableEq

/-- The store of record: the Prisma `user` table keyed by id. -/
abbrev Db := List (String × UserRec)

/-- Models `UpdateUserDTO`: optional replacement values for mutable fields. -/
structure UpdateUserDTO where
  name : Option String
  email : Option String
  deriving DecidableEq

/-- Models `CreateUserDTO`. -/
structure CreateUserDTO where
  name : String
  email : String
  deriving DecidableEq

/-- Models `prisma.user.findUnique({ where: { id } })`. -/
def prismaFindUnique (db : Db) (id : String) : Option UserRec :=
  alookup db id

/-- Models `prisma.user.update`: throws (Prisma P2025) when the record does
not exist; `fail` models any other database error. -/
def prismaUpdate (db : Db) (id : String) (data : UpdateUserDTO) (fail : Bool) :
    Except Unit (UserRec × Db) :=
  if fail then .error ()
  else
    match alookup db id with
    | none => .error ()
    | some u =>
      let u' : UserRec := ⟨data.name.getD u.name, data.email.getD u.email⟩
      .ok (u', (id, u') :: db.filter (fun p => decide (p.1 ≠ id)))

/-- Models `prisma.user.create` (the id is generated by the database and
passed in here as `newId`); `fail` models a database error such as a
unique-constraint violation. -/
def prismaCreate (db : Db) (data : CreateUserDTO) (newId : String) (fail : Bool) :
    Except Unit (UserRec × Db) :=
  if fail then .error ()
  else .ok (⟨data.name, data.email⟩, (newId, ⟨data.name, data.email⟩) :: db)

/-- Models `prisma.user.delete`: throws when the record does not exist. -/
def prismaDelete (db : Db) (id : String) (fail : Bool) :
    Except Unit (UserRec × Db) :=
  if fail then .error ()
  else
    match alookup db id with
    | none => .error ()
    | some u => .ok (u, db.filter (fun p => decide (p.1 ≠ id)))

/-- Models `UserRepository.invalidateUserCache`: always deletes the id-based
key, deletes the old-email key when the old email is JS-truthy (nonempty),
and deletes the new-email key when it is truthy and `!==` the old email; the
`Promise.all` of deletes is sequentialized (the deletes commute). -/
def UserRepository.invalidateUserCache (cache : CacheState) (userId : String)
    (oldEmail newEmail : Option String) : CacheState :=
  let c1 := (CacheService.delete cache (CacheService.generateUserKey userId) false).2
  let c2 :=
    match oldEmail with
    | some oe =>
      if oe ≠ "" then
        (CacheService.delete c1 (CacheService.generateUserByEmailKey oe) false).2
      else c1
    | none => c1
  match newEmail with
  | some ne =>
    if ne ≠ "" ∧ oldEmail ≠ some ne then
      (CacheService.delete c2 (CacheService.generateUserByEmailKey ne) false).2
    else c2
  | none => c2

/-- Models `UserRepository.invalidateUsersListCache`:
`cacheService.deletePattern('users:list:*')`. -/
def UserRepository.invalidateUsersListCache (cache : CacheState) : CacheState :=
  (CacheService.deletePattern cache "users:list:*" false false).2

/-- Models `UserRepository.update`: read the current email, run the
store-of-record update (whose exception propagates, leaving the cache
untouched), then invalidate the id key, old/new email keys and all
users-list keys. -/
def UserRepository.update (db : Db) (cache : CacheState) (id : String)
    (data : UpdateUserDTO) (fail : Bool) :
    Except Unit UserRec × Db × CacheState :=
  let currentUser := prismaFindUnique db id
  match prismaUpdate db id data fail with
  | .error e => (.error e, db, cache)
  | .ok (result, db') =>
    let c1 := UserRepository.invalidateUserCache cache id
      (currentUser.map UserRec.email) (some result.email)
    let c2 := UserRepository.invalidateUsersListCache c1
    (.ok result, db', c2)

/-- Models `UserRepository.create`: store-of-record insert first, then
users-list invalidation only. -/
def UserRepository.create (db : Db) (cache : CacheState) (data : CreateUserDTO)
    (newId : String) (fail : Bool) :
    Except Unit UserRec × Db × CacheState :=
  match prismaCreate db data newId fail with
  | .error e => (.error e, db, cache)
  | .ok (result, db') =>
    (.ok result, db', UserRepository.invalidateUsersListCache cache)

/-- Models `UserRepository.delete`: read the user for email invalidation, run
the store-of-record delete (whose exception propagates), then invalidate the
id/email keys and the users-list keys. -/
def UserRepository.delete (db : Db) (cache : CacheState) (id : String)
    (fail : Bool) : Except Unit UserRec × Db × CacheState :=
  let userToDelete := prismaFindUnique db id
  match prismaDelete db id fail with
  | .error e => (.error e, db, cache)
  | .ok (result, db') =>
    let c1 :=
      match userToDelete with
      | some u => UserRepository.invalidateUserCache cache id (some u.email) none
      | none => cache
    (.ok result, db', UserRepository.invalidateUsersListCache c1)

theorem charListLe_total : ∀ a b : List Char, charListLe a b = true ∨ charListLe b a = true
  | [], _ => Or.inl rfl
  | _ :: _, [] => Or.inr rfl
  | a :: as, b :: bs => by
    by_cases hab : a = b
    · subst hab
      simpa [charListLe] using charListLe_total as bs
    · rcases lt_trichotomy a b with h | h | h
      · exact Or.inl (by simp [charListLe, hab, h])
      · exact absurd h hab
      · exact Or.inr (by simp [charListLe, Ne.symm hab, h])

theorem charListLe_trans :
    ∀ a b c : List Char, charListLe a b = true → charListLe b c = true →
      charListLe a c = true
  | [], _, _, _, _ => rfl
  | _ :: _, [], _, h1, _ => by simp [charListLe] at h1
  | _ :: _, _ :: _, [], _, h2 => by simp [charListLe] at h2
  | a :: as, b :: bs, c :: cs, h1, h2 => by
    by_cases hab : a = b <;> by_cases hbc : b = c
    · subst hab; subst hbc
      simp only [charListLe, if_pos rfl] at h1 h2 ⊢
      exact charListLe_trans as bs cs h1 h2
    · subst hab
      simp only [charListLe, if_pos rfl] at h1
      simp only [charListLe, if_neg hbc, decide_eq_true_eq] at h2
      simp [charListLe, ne_of_lt h2, h2]
    · subst hbc
      simp only [charListLe, if_neg hab, decide_eq_true_eq] at h1
      simp [charListLe, ne_of_lt h1, h1]
    · simp only [charListLe, if_neg hab, decide_eq_true_eq] at h1
      simp only [charListLe, if_neg hbc, decide_eq_true_eq] at h2
      have hac := lt_trans h1 h2
      simp [charListLe, ne_of_lt hac, hac]

theorem charListLe_antisymm :
    ∀ a b : List Char, charListLe a b = true → charListLe b a = true → a = b
  | [], [], _, _ => rfl
  | [], _ :: _, _, h2 => by simp [charListLe] at h2
  | _ :: _, [], h1, _ => by simp [charListLe] at h1
  | a :: as, b :: bs, h1, h2 => by
    by_cases hab : a = b
    · subst hab
      simp only [charListLe, if_pos rfl] at h1 h2
      rw [charListLe_antisymm as bs h1 h2]
    · simp only [charListLe, if_neg hab, decide_eq_true_eq] at h1
      simp only [charListLe, if_neg (Ne.symm hab), decide_eq_true_eq] at h2
      exact absurd h2 (lt_asymm h1)

instance : IsTotal String (fun a b => strLe a b = true) :=
  ⟨fun a b => charListLe_total a.data b.data⟩

instance : IsTrans String (fun a b => strLe a b = true) :=
  ⟨fun a b c => charListLe_trans a.data b.data c.data⟩

instance : IsAntisymm String (fun a b => strLe a b = true) :=
  ⟨fun a b h1 h2 => by
    have h := charListLe_antisymm a.data b.data h1 h2
    cases a; cases b; exact congrArg String.mk h⟩

theorem sortKeys_eq_of_perm {l1 l2 : List String} (h : l1.Perm l2) :
    sortKeys l1 = sortKeys l2 :=
  List.eq_of_perm_of_sorted
    (((List.perm_insertionSort _ l1).trans h).trans (List.perm_insertionSort _ l2).symm)
    (List.sorted_insertionSort _ l1) (List.sorted_insertionSort _ l2)

theorem alookup_eq_some_of_mem {β : Type} :
    ∀ {l : List (String × β)} {k : String} {v : β},
      (l.map Prod.fst).Nodup → (k, v) ∈ l → alookup l k = some v
  | [], _, _, _, hm => absurd hm (List.not_mem_nil _)
  | (k', v') :: rest, k, v, hnd, hm => by
    simp only [List.map_cons, List.nodup_cons] at hnd
    rcases List.mem_cons.mp hm with h | h
    · injection h with hk hv
      subst hk; subst hv
      simp [alookup]
    · by_cases hk : k' = k
      · subst hk
        exact absurd (List.mem_map.mpr ⟨(k', v), h, rfl⟩) hnd.1
      · simpa [alookup, hk] using alookup_eq_some_of_mem hnd.2 h

theorem alookup_mem {β : Type} :
    ∀ {l : List (String × β)} {k : String} {v : β},
      alookup l k = some v → (k, v) ∈ l
  | [], _, _, h => by simp [alookup] at h
  | (k', v') :: rest, k, v, h => by
    by_cases hk : k' = k
    · subst hk
      simp only [alookup, if_true, eq_self_iff_true, Option.some.injEq] at h
      subst h; exact List.mem_cons_self _ _
    · simp only [alookup, if_neg hk] at h
      exact List.mem_cons_of_mem _ (alookup_mem h)

theorem alookup_none_iff {β : Type} :
    ∀ (l : List (String × β)) (k : String),
      alookup l k = none ↔ k ∉ l.map Prod.fst
  | [], k => by simp [alookup]
  | (k', v') :: rest, k => by
    by_cases hk : k' = k
    · subst hk; simp [alookup]
    · simp [alookup, hk, alookup_none_iff rest k, Ne.symm hk]

theorem alookup_perm {β : Type} {l1 l2 : List (String × β)} (hp : l1.Perm l2)
    (hnd : (l1.map Prod.fst).Nodup) (k : String) : alookup l1 k = alookup l2 k := by
  have hnd2 : (l2.map Prod.fst).Nodup := ((hp.map Prod.fst).nodup_iff).mp hnd
  cases h : alookup l1 k with
  | some v => exact (alookup_eq_some_of_mem hnd2 (hp.mem_iff.mp (alookup_mem h))).symm
  | none =>
    have h2 : k ∉ l2.map Prod.fst := by
      intro hm
      exact ((alookup_none_iff l1 k).mp h) (((hp.map Prod.fst).mem_iff).mpr hm)
    exact ((alookup_none_iff l2 k).mpr h2).symm

theorem filterSegs_congr {fs1 fs2 : FilterMap}
    (h : ∀ k, alookup fs1 k = alookup fs2 k) :
    ∀ ks, CacheKeyGenerator.filterSegs fs1 ks = CacheKeyGenerator.filterSegs fs2 ks
  | [] => rfl
  | k :: ks => by
    have ih := filterSegs_congr h ks
    simp only [CacheKeyGenerator.filterSegs, h k, ih]

/-- C1: for every entity type, pagination params, and filter map, the
list-key derivation returns the same key for any two filter maps containing
the same key-value pairs regardless of insertion order, because filter keys
are sorted before being appended. -/
theorem entityList_filter_order_irrelevant (entityType : String)
    (pagination : Option PaginationParams) {fs1 fs2 : FilterMap}
    (hnd : (fs1.map Prod.fst).Nodup) (hperm : fs1.Perm fs2) :
    CacheKeyGenerator.entityList entityType pagination (some fs1) =
      CacheKeyGenerator.entityList entityType pagination (some fs2) := by
  have hfp : CacheKeyGenerator.filterParts (some fs1) =
      CacheKeyGenerator.filterParts (some fs2) := by
    cases fs1 with
    | nil =>
      cases fs2 with
      | nil => rfl
      | cons b bs => exact absurd hperm.length_eq (by simp)
    | cons a as =>
      cases fs2 with
      | nil => exact absurd hperm.length_eq (by simp)
      | cons b bs =>
        show CacheKeyGenerator.filterSegs (a :: as) (sortKeys ((a :: as).map Prod.fst)) =
          CacheKeyGenerator.filterSegs (b :: bs) (sortKeys ((b :: bs).map Prod.fst))
        rw [sortKeys_eq_of_perm (hperm.map Prod.fst)]
        exact filterSegs_congr (alookup_perm hperm hnd) _
  simp only [CacheKeyGenerator.entityList, hfp]

/-- Closed witness for C1 at a concrete two-entry filter map given in the two
possible insertion orders. -/
theorem entityList_filter_order_irrelevant_witness :
    ((([("b", some "2"), ("a", some "1")] : FilterMap).map Prod.fst).Nodup ∧
      ([("b", some "2"), ("a", some "1")] : FilterMap).Perm
        [("a", some "1"), ("b", some "2")]) ∧
    CacheKeyGenerator.entityList "users" none (some [("b", some "2"), ("a", some "1")]) =
      CacheKeyGenerator.entityList "users" none (some [("a", some "1"), ("b", some "2")]) :=
  ⟨⟨by decide, List.Perm.swap _ _ _⟩,
    entityList_filter_order_irrelevant "users" none (by decide)
      (List.Perm.swap _ _ _)⟩

theorem colon_data : (":" : String).data = [':'] := rfl

theorem data_append_colon (x y : String) :
    (x ++ ":" ++ y).data = x.data ++ ':' :: y.data := by
  rw [String.data_append, String.data_append, colon_data, List.append_assoc]
  rfl

theorem colon_mem_append (b w : List Char) : ':' ∈ b ++ ':' :: w :=
  List.mem_append_right b (List.mem_cons_self _ _)

theorem colon_append_inj : ∀ (a b : List Char) {v w : List Char},
    ':' ∉ a → ':' ∉ b → a ++ ':' :: v = b ++ ':' :: w → a = b ∧ v = w
  | [], [], v, w, _, _, h => ⟨rfl, by injection h⟩
  | [], b :: bs, v, w, _, hb, h => by
    injection h with h1 h2
    exact absurd (by rw [← h1]; exact List.mem_cons_self _ _) hb
  | a :: as, [], v, w, ha, _, h => by
    injection h with h1 h2
    exact absurd (by rw [h1]; exact List.mem_cons_self _ _) ha
  | a :: as, b :: bs, v, w, ha, hb, h => by
    injection h with h1 h2
    subst h1
    have ha' : ':' ∉ as := fun hm => ha (List.mem_cons_of_mem _ hm)
    have hb' : ':' ∉ bs := fun hm => hb (List.mem_cons_of_mem _ hm)
    obtain ⟨he, hv⟩ := colon_append_inj as bs ha' hb' h2
    exact ⟨by rw [he], hv⟩

theorem str_data_inj {a b : String} (h : a.data = b.data) : a = b := by
  cases a; cases b; exact congrArg String.mk h

theorem pagePart_ne_nil : ∀ p : Option PaginationParams, CacheKeyGenerator.pagePart p ≠ []
  | none => by simp [CacheKeyGenerator.pagePart]
  | some pg => by
    unfold CacheKeyGenerator.pagePart
    cases hp : truthyNum pg.page <;> cases hl : truthyNum pg.limit <;> simp [hp, hl]

theorem joinColon_cons (a : String) :
    ∀ {xs : List String}, xs ≠ [] → joinColon (a :: xs) = a ++ ":" ++ joinColon xs
  | [], h => absurd rfl h
  | _ :: _, _ => rfl

theorem entityList_shape (et : String) (p : Option PaginationParams)
    (fs : Option FilterMap) :
    ∃ r : String, CacheKeyGenerator.entityList et p fs =
      et ++ ":" ++ ("list" ++ ":" ++ r) := by
  refine ⟨joinColon (CacheKeyGenerator.pagePart p ++ CacheKeyGenerator.filterParts fs), ?_⟩
  have hne : CacheKeyGenerator.pagePart p ++ CacheKeyGenerator.filterParts fs ≠ [] := by
    intro h
    exact pagePart_ne_nil p (List.append_eq_nil.mp h).1
  unfold CacheKeyGenerator.entityList
  rw [joinColon_cons et (by simp), joinColon_cons "list" hne]

/-- C7 (amended): within one entity type, a by-id key, a by-field key and a
list key are pairwise distinct provided the id and the field name contain no
`':'` separator and the field name is not the literal string `"list"`.
(Unrestricted, the claim is false: ids/fields containing `':'` collide across
access kinds.) -/
theorem keyKinds_no_collision (entityType id field value : String)
    (pagination : Option PaginationParams) (filters : Option FilterMap)
    (hid : noColon id) (hf : noColon field) (hfl : field ≠ "list") :
    CacheKeyGenerator.entityById entityType id ≠
        CacheKeyGenerator.entityByField entityType field value ∧
    CacheKeyGenerator.entityById entityType id ≠
        CacheKeyGenerator.entityList entityType pagination filters ∧
    CacheKeyGenerator.entityByField entityType field value ≠
        CacheKeyGenerator.entityList entityType pagination filters := by
  obtain ⟨r, hr⟩ := entityList_shape entityType pagination filters
  have hbid : (CacheKeyGenerator.entityById entityType id).data =
      entityType.data ++ ':' :: id.data := data_append_colon entityType id
  have hbf : (CacheKeyGenerator.entityByField entityType field value).data =
      entityType.data ++ ':' :: (field.data ++ ':' :: value.data) := by
    show ((entityType ++ ":" ++ field) ++ ":" ++ value).data = _
    rw [data_append_colon, data_append_colon]
    rw [List.append_assoc]
    rfl
  have hlst : (et : String) → (et ++ ":" ++ ("list" ++ ":" ++ r)).data =
      et.data ++ ':' :: ("list".data ++ ':' :: r.data) := by
    intro et
    rw [data_append_colon, data_append_colon]
  refine ⟨fun h => ?_, fun h => ?_, fun h => ?_⟩
  · have hd := congrArg String.data h
    rw [hbid, hbf] at hd
    have h1 := List.append_cancel_left hd
    injection h1 with _ h2
    exact hid (by rw [h2]; exact colon_mem_append _ _)
  · rw [hr] at h
    have hd := congrArg String.data h
    rw [hbid, hlst] at hd
    have h1 := List.append_cancel_left hd
    injection h1 with _ h2
    exact hid (by rw [h2]; exact colon_mem_append _ _)
  · rw [hr] at h
    have hd := congrArg String.data h
    rw [hbf, hlst] at hd
    have h1 := List.append_cancel_left hd
    injection h1 with _ h2
    have hnl : ':' ∉ ("list" : String).data := by decide
    obtain ⟨he, _⟩ := colon_append_inj field.data ("list" : String).data hf hnl h2
    exact hfl (str_data_inj he)

/-- Counterexample to C7 as stated: for arbitrary id strings, a by-id key can
collide with a by-field key (the id may itself contain `':'` separators). -/
theorem entityById_byField_collision :
    CacheKeyGenerator.entityById "user" "email:a" =
      CacheKeyGenerator.entityByField "user" "email" "a" := by decide

/-- Closed witness for the amended C7 at concrete descriptor values. -/
theorem keyKinds_no_collision_witness :
    (noColon "1" ∧ noColon "email" ∧ ("email" : String) ≠ "list") ∧
    (CacheKeyGenerator.entityById "user" "1" ≠
        CacheKeyGenerator.entityByField "user" "email" "a@b" ∧
      CacheKeyGenerator.entityById "user" "1" ≠
        CacheKeyGenerator.entityList "user" none none ∧
      CacheKeyGenerator.entityByField "user" "email" "a@b" ≠
        CacheKeyGenerator.entityList "user" none none) :=
  ⟨⟨by decide, by decide, by decide⟩,
    keyKinds_no_collision "user" "1" "email" "a@b" none none
      (by decide) (by decide) (by decide)⟩

/-- Counterexample to C8 as stated: with JS-falsy `page: 0` and no limit, the
partial-pagination key equals the no-pagination key, so the two keys are not
distinct for every page value. -/
theorem entityList_page_zero_collision :
    CacheKeyGenerator.entityList "users" (some ⟨some 0, none⟩) none =
      CacheKeyGenerator.entityList "users" none none := by decide

/-- C8 (amended): empty filters yield the same key as no filters, and a
pagination object supplying only a page yields a key distinct from the
no-pagination key for every truthy (nonzero) page value. -/
theorem entityList_empty_filters_and_partial_pagination (et : String)
    (p : Option PaginationParams) (n : Int) (hn : n ≠ 0) :
    CacheKeyGenerator.entityList et p (some []) =
        CacheKeyGenerator.entityList et p none ∧
    CacheKeyGenerator.entityList et (some ⟨some n, none⟩) none ≠
      CacheKeyGenerator.entityList et none none := by
  constructor
  · rfl
  · intro h
    have hpp : CacheKeyGenerator.pagePart (some ⟨some n, none⟩) =
        ["page", toString n] := by
      simp [CacheKeyGenerator.pagePart, truthyNum, numStr, hn]
    have hL : CacheKeyGenerator.entityList et (some ⟨some n, none⟩) none =
        et ++ ":" ++ ("list" ++ ":" ++ ("page" ++ ":" ++ toString n)) := by
      unfold CacheKeyGenerator.entityList
      rw [hpp]
      rfl
    have hR : CacheKeyGenerator.entityList et none none =
        et ++ ":" ++ ("list" ++ ":" ++ "all") := rfl
    rw [hL, hR] at h
    have hd := congrArg String.data h
    simp only [data_append_colon] at hd
    have h1 := List.append_cancel_left hd
    injection h1 with _ h2
    have h3 := List.append_cancel_left h2
    injection h3 with _ h4
    injection h4 with h5 _
    exact absurd h5 (by decide)

/-- Closed witness for the amended C8 at page 2. -/
theorem entityList_edge_cases_witness :
    ((2 : Int) ≠ 0) ∧
    (CacheKeyGenerator.entityList "users" none (some []) =
        CacheKeyGenerator.entityList "users" none none ∧
      CacheKeyGenerator.entityList "users" (some ⟨some 2, none⟩) none ≠
        CacheKeyGenerator.entityList "users" none none) :=
  ⟨by decide, entityList_empty_filters_and_partial_pagination "users" none 2 (by decide)⟩

/-- Counterexample to C9 as stated: the by-id key carries no `id` access-kind
segment — the derived key for user "1" is "user:1", not "user:id:1". -/
theorem entityById_claimed_grammar_false :
    CacheKeyGenerator.entityById "user" "1" ≠ "user:id:1" := by decide

/-- C9 (amended): the by-id key is `entityType:idValue` with no literal
access-kind segment, and the by-field key is `entityType:fieldName:value`
with no literal `field` marker; concretely user "1" maps to "user:1" (not
"user:id:1") and email e maps to "user:email:e" (not "user:field:email:e"),
and the legacy `CacheService` generators agree with this shape. -/
theorem key_grammar_no_kind_segment (entityType id field value email : String) :
    CacheKeyGenerator.entityById entityType id = entityType ++ ":" ++ id ∧
    CacheKeyGenerator.entityByField entityType field value =
      entityType ++ ":" ++ field ++ ":" ++ value ∧
    CacheService.generateUserKey id = "user:" ++ id ∧
    CacheService.generateUserByEmailKey email = "user:email:" ++ email ∧
    CacheKeyGenerator.entityById "user" "1" = "user:1" ∧
    CacheKeyGenerator.entityById "user" "1" ≠ "user:id:1" ∧
    CacheKeyGenerator.entityByField "user" "email" "e@x" = "user:email:e@x" ∧
    CacheKeyGenerator.entityByField "user" "email" "e@x" ≠ "user:field:email:e@x" :=
  ⟨rfl, rfl, rfl, rfl, by decide, by decide, by decide, by decide⟩

theorem alookup_filterKey (q : String → Bool) :
    ∀ (s : List (String × StoredEntry)) (k : String),
      alookup (s.filter (fun p => q p.1)) k = if q k then alookup s k else none
  | [], k => by simp [alookup]
  | (k', e) :: rest, k => by
    have ih := alookup_filterKey q rest k
    by_cases hq : q k' <;> by_cases hk : k' = k
    · subst hk
      simp [alookup, List.filter_cons, hq]
    · simp [alookup, List.filter_cons, hq, hk, ih]
    · subst hk
      simp [alookup, List.filter_cons, hq, ih]
    · simp [alookup, List.filter_cons, hq, hk, ih]

theorem alookup_storeErase :
    ∀ (s : List (String × StoredEntry)) (key k : String),
      alookup (storeErase s key) k = if k = key then none else alookup s k
  | [], key, k => by by_cases hk : k = key <;> simp [storeErase, alookup, hk]
  | (k', e) :: rest, key, k => by
    have ih := alookup_storeErase rest key k
    by_cases hq : k' = key <;> by_cases hk : k' = k <;>
      simp_all [storeErase, alookup, List.filter_cons]

theorem alookup_storeEraseAll :
    ∀ (s : List (String × StoredEntry)) (keys : List String) (k : String),
      alookup (storeEraseAll s keys) k = if k ∈ keys then none else alookup s k
  | [], keys, k => by by_cases hk : k ∈ keys <;> simp [storeEraseAll, alookup, hk]
  | (k', e) :: rest, keys, k => by
    have ih := alookup_storeEraseAll rest keys k
    by_cases hq : k' ∈ keys <;> by_cases hk : k' = k <;>
      simp_all [storeEraseAll, alookup, List.filter_cons]

/-- C2: with the backend disconnected or the underlying backend call
throwing, every cache operation returns its safe default and leaves the
backend untouched: `get` misses, `set`/`delete`/`flush` return `false`,
`deletePattern` returns `0`, `exists` returns `false`; no exception
propagates (every operation is a total function into plain values). -/
theorem cache_ops_degrade {α : Type} (cs : CacheState)
    (deserialize : String → Option α) (serialize : α → String) (key : String)
    (value : α) (ttlSeconds : Option Int) (pat : String)
    (fail failKeys failDel : Bool)
    (h : cs.unavailable = true ∨ fail = true)
    (hp : cs.unavailable = true ∨ failKeys = true ∨ failDel = true) :
    CacheService.get cs deserialize key fail = none ∧
    CacheService.set cs serialize key value ttlSeconds fail = (false, cs) ∧
    CacheService.delete cs key fail = (false, cs) ∧
    CacheService.deletePattern cs pat failKeys failDel = (0, cs) ∧
    CacheService.existsKey cs key fail = false ∧
    CacheService.flush cs fail = (false, cs) := by
  have hpat : CacheService.deletePattern cs pat failKeys failDel = (0, cs) := by
    rcases hp with h' | h' | h'
    · simp [CacheService.deletePattern, h']
    · subst h'
      by_cases hu : cs.unavailable = true
      · simp [CacheService.deletePattern, hu]
      · simp [CacheService.deletePattern, hu, redisKeys]
    · subst h'
      by_cases hu : cs.unavailable = true
      · simp [CacheService.deletePattern, hu]
      · by_cases hk : failKeys = true
        · simp [CacheService.deletePattern, hu, hk, redisKeys]
        · simp only [Bool.not_eq_true] at hk
          simp [CacheService.deletePattern, hu, hk, redisKeys, redisDelMany]
  refine ⟨?_, ?_, ?_, hpat, ?_, ?_⟩ <;>
  · rcases h with h' | h'
    · simp [CacheService.get, CacheService.set, CacheService.delete,
        CacheService.existsKey, CacheService.flush, h']
    · subst h'
      by_cases hu : cs.unavailable = true
      · simp [CacheService.get, CacheService.set, CacheService.delete,
          CacheService.existsKey, CacheService.flush, hu]
      · simp [CacheService.get, CacheService.set, CacheService.delete,
          CacheService.existsKey, CacheService.flush, hu, redisGet, redisSetEx,
          redisDel, redisExists, redisFlushDb]

/-- Closed witness for C2 with a disconnected state and a throwing backend. -/
theorem cache_ops_degrade_witness :
    ((⟨false, false, "app", 3600, []⟩ : CacheState).unavailable = true ∨
      (true : Bool) = true) ∧
    (CacheService.get (⟨false, false, "app", 3600, []⟩ : CacheState)
        (fun s : String => some s) "k" true = none ∧
      CacheService.set (⟨false, false, "app", 3600, []⟩ : CacheState)
          (fun s : String => s) "k" "v" (some 60) true =
        (false, ⟨false, false, "app", 3600, []⟩) ∧
      CacheService.delete (⟨false, false, "app", 3600, []⟩ : CacheState) "k" true =
        (false, ⟨false, false, "app", 3600, []⟩) ∧
      CacheService.deletePattern (⟨false, false, "app", 3600, []⟩ : CacheState)
          "users:list:*" true true = (0, ⟨false, false, "app", 3600, []⟩) ∧
      CacheService.existsKey (⟨false, false, "app", 3600, []⟩ : CacheState) "k" true =
        false ∧
      CacheService.flush (⟨false, false, "app", 3600, []⟩ : CacheState) true =
        (false, ⟨false, false, "app", 3600, []⟩)) :=
  ⟨Or.inl (by decide),
    cache_ops_degrade (⟨false, false, "app", 3600, []⟩ : CacheState)
      (fun s : String => some s) (fun s : String => s) "k" "v" (some 60)
      "users:list:*" true true true (Or.inl (by decide)) (Or.inl (by decide))⟩

/-- Counterexample to C10 as stated: a caller-supplied `ttlSeconds` of `0` is
JS-falsy, so `ttlSeconds || CACHE_TTL_SECONDS` selects the configured default
(3600 here) rather than the caller-supplied `0`: the entry is stored with
expiry 3600, not 0. -/
theorem set_ttl_zero_counterexample :
    (CacheService.set (⟨true, true, "app", 3600, []⟩ : CacheState)
        (fun s : String => s) "k" "v" (some 0) false).1 = true ∧
    alookup (CacheService.set (⟨true, true, "app", 3600, []⟩ : CacheState)
        (fun s : String => s) "k" "v" (some 0) false).2.store "app:k" =
      some ⟨"v", 3600⟩ ∧
    alookup (CacheService.set (⟨true, true, "app", 3600, []⟩ : CacheState)
        (fun s : String => s) "k" "v" (some 0) false).2.store "app:k" ≠
      some ⟨"v", 0⟩ := by decide

/-- C10 (amended): every successful `set` writes through `setEx` exactly one
entry — the serialized value under the prefixed key with expiry
`resolveTtl ttlSeconds defaultTTL` (the caller's TTL when truthy, the
configured default when the caller omits it or passes the falsy `0`) — that
stored expiry is strictly positive (`setEx` rejects a non-positive effective
TTL, in which case `set` returns `false` and stores nothing), and no other
key is touched. -/
theorem set_success_setex_positive_ttl {α : Type} (cs : CacheState)
    (serialize : α → String) (key : String) (value : α)
    (ttlSeconds : Option Int) (fail : Bool) {cs' : CacheState}
    (h : CacheService.set cs serialize key value ttlSeconds fail = (true, cs')) :
    cs.unavailable = false ∧
    cs' = { cs with store := (cs.prefKey key, ⟨serialize value, resolveTtl ttlSeconds cs.defaultTTL⟩) :: storeErase cs.store (cs.prefKey key) } ∧
    0 < resolveTtl ttlSeconds cs.defaultTTL ∧
    alookup cs'.store (cs.prefKey key) =
      some ⟨serialize value, resolveTtl ttlSeconds cs.defaultTTL⟩ ∧
    ∀ k, k ≠ cs.prefKey key → alookup cs'.store k = alookup cs.store k := by
  unfold CacheService.set at h
  by_cases hu : cs.unavailable = true
  · rw [if_pos hu] at h
    exact absurd (congrArg Prod.fst h) (by simp)
  · have hu' : cs.unavailable = false := by simpa using hu
    rw [if_neg hu] at h
    unfold redisSetEx at h
    by_cases hf : (fail = true ∨ resolveTtl ttlSeconds cs.defaultTTL ≤ 0)
    · rw [if_pos hf] at h
      exact absurd (congrArg Prod.fst h) (by simp)
    · rw [if_neg hf] at h
      push_neg at hf
      obtain ⟨-, httl⟩ := hf
      have h2 := congrArg Prod.snd h
      simp only at h2
      subst h2
      refine ⟨hu', rfl, httl, by simp [alookup], ?_⟩
      intro k hk
      simp [alookup, alookup_storeErase, hk, Ne.symm hk]

/-- Closed witness for the amended C10 at a concrete connected state. -/
theorem set_success_setex_positive_ttl_witness :
    CacheService.set (⟨true, true, "app", 3600, []⟩ : CacheState)
        (fun s : String => s) "k" "v" (some 60) false =
      (true, (⟨true, true, "app", 3600, [("app:k", ⟨"v", 60⟩)]⟩ : CacheState)) ∧
    0 < resolveTtl (some 60) (3600 : Int) :=
  ⟨by decide,
    (@set_success_setex_positive_ttl String (⟨true, true, "app", 3600, []⟩ : CacheState)
      (fun s : String => s) "k" "v" (some 60) false
      (⟨true, true, "app", 3600, [("app:k", ⟨"v", 60⟩)]⟩ : CacheState)
      (by decide)).2.2.1⟩

/-- C5: with the backend connected and both calls succeeding, `set(k, v, ttl)`
followed immediately by `get(k)` returns the value: the same namespace prefix
is applied on both paths and the serialized payload is stored intact, so the
value survives whenever the platform JSON pair round-trips it
(`deserialize (serialize v) = some v`) and its serialization is nonempty (as
`JSON.stringify` of any defined value is). -/
theorem set_get_roundtrip {α : Type} (cs : CacheState) (serialize : α → String)
    (deserialize : String → Option α) (key : String) (value : α)
    (ttlSeconds : Option Int) {cs' : CacheState}
    (hset : CacheService.set cs serialize key value ttlSeconds false = (true, cs'))
    (hrt : deserialize (serialize value) = some value)
    (hne : serialize value ≠ "") :
    CacheService.get cs' deserialize key false = some value := by
  obtain ⟨hu, hcs', -, -, -⟩ :=
    set_success_setex_positive_ttl cs serialize key value ttlSeconds false hset
  subst hcs'
  have hu2 : cs.clientPresent = true ∧ cs.isConnected = true := by
    simpa [CacheState.unavailable] using hu
  simp [CacheService.get, CacheState.unavailable, CacheState.prefKey, hu2.1, hu2.2,
    redisGet, alookup, hne, hrt]

/-- Closed witness for C5 with a unit value serialized as the JSON "null". -/
theorem set_get_roundtrip_witness :
    (CacheService.set (⟨true, true, "app", 3600, []⟩ : CacheState)
        (fun _ : Unit => "null") "k" () none false =
      (true, (⟨true, true, "app", 3600, [("app:k", ⟨"null", 3600⟩)]⟩ : CacheState))) ∧
    ((fun s : String => if s = "null" then some () else none) "null" = some ()) ∧
    ("null" : String) ≠ "" ∧
    CacheService.get (⟨true, true, "app", 3600, [("app:k", ⟨"null", 3600⟩)]⟩ : CacheState)
        (fun s : String => if s = "null" then some () else none) "k" false = some () :=
  ⟨by decide, by decide, by decide,
    set_get_roundtrip (⟨true, true, "app", 3600, []⟩ : CacheState)
      (fun _ : Unit => "null") (fun s : String => if s = "null" then some () else none)
      "k" () none (by decide) (by decide) (by decide)⟩

/-- Counterexample to C6 as stated: `flush` runs `flushDb`, so a key stored
under a different namespace prefix ("other:x" while the active prefix is
"app") is removed as well, not left unchanged. -/
theorem flush_removes_foreign_namespace_key :
    (CacheService.flush
        (⟨true, true, "app", 3600, [("other:x", ⟨"d", 5⟩)]⟩ : CacheState) false).1 =
      true ∧
    alookup (CacheService.flush
        (⟨true, true, "app", 3600, [("other:x", ⟨"d", 5⟩)]⟩ : CacheState)
        false).2.store "other:x" = none := by decide

/-- C6 (amended): when connected and the backend call succeeds, `flush`
removes every key of the shared database — keys under the active namespace
prefix and keys under any other prefix alike (`flushDb` is not
namespace-scoped) — and returns `true`. -/
theorem flush_clears_entire_db (cs : CacheState) (hc : cs.unavailable = false) :
    CacheService.flush cs false = (true, { cs with store := [] }) ∧
    ∀ k, alookup (CacheService.flush cs false).2.store k = none := by
  unfold CacheService.flush redisFlushDb
  simp [hc, alookup]

/-- Closed witness for the amended C6: a populated connected cache is fully
emptied by `flush`. -/
theorem flush_clears_entire_db_witness :
    (⟨true, true, "app", 3600, [("app:a", ⟨"x", 1⟩)]⟩ : CacheState).unavailable =
      false ∧
    (CacheService.flush
        (⟨true, true, "app", 3600, [("app:a", ⟨"x", 1⟩)]⟩ : CacheState) false =
      (true, (⟨true, true, "app", 3600, []⟩ : CacheState)) ∧
      ∀ k, alookup (CacheService.flush
        (⟨true, true, "app", 3600, [("app:a", ⟨"x", 1⟩)]⟩ : CacheState)
        false).2.store k = none) :=
  ⟨by decide,
    flush_clears_entire_db
      (⟨true, true, "app", 3600, [("app:a", ⟨"x", 1⟩)]⟩ : CacheState) (by decide)⟩

theorem delete_effect (cs : CacheState) (key : String)
    (hc : cs.unavailable = false) :
    (CacheService.delete cs key false).2 =
      { cs with store := storeErase cs.store (cs.prefKey key) } := by
  unfold CacheService.delete redisDel
  simp [hc]

theorem alookup_filterNotGlob (P : String) :
    ∀ (s : List (String × StoredEntry)) (k : String),
      alookup (s.filter (fun p => !globMatch P p.1)) k =
        if globMatch P k = true then none else alookup s k
  | [], k => by by_cases hg : globMatch P k = true <;> simp [alookup, hg]
  | (k', e) :: rest, k => by
    have ih := alookup_filterNotGlob P rest k
    by_cases hq : globMatch P k' = true <;> by_cases hk : k' = k <;>
      simp_all [alookup, List.filter_cons]

theorem matchKeys_spec (store : List (String × StoredEntry)) (P : String)
    (x : String × StoredEntry) (hx : x ∈ store) :
    decide (x.1 ∉ (store.filter (fun p => globMatch P p.1)).map Prod.fst) =
      !globMatch P x.1 := by
  by_cases hg : globMatch P x.1 = true
  · have hmem : x.1 ∈ (store.filter (fun p => globMatch P p.1)).map Prod.fst :=
      List.mem_map.mpr ⟨x, List.mem_filter.mpr ⟨hx, hg⟩, rfl⟩
    simp [hmem, hg]
  · have hnmem : x.1 ∉ (store.filter (fun p => globMatch P p.1)).map Prod.fst := by
      intro hm
      obtain ⟨p, hpf, hpk⟩ := List.mem_map.mp hm
      have := (List.mem_filter.mp hpf).2
      rw [hpk] at this
      exact hg this
    simp [hnmem, hg]

theorem deletePattern_effect (cs : CacheState) (pat : String)
    (hc : cs.unavailable = false) :
    (CacheService.deletePattern cs pat false false).2 =
      { cs with store := cs.store.filter (fun p => !globMatch (cs.prefKey pat) p.1) } := by
  unfold CacheService.deletePattern redisKeys redisDelMany
  simp only [hc, Bool.false_eq_true, if_false, ite_false]
  by_cases hks :
      ((cs.store.filter (fun p => globMatch (cs.prefKey pat) p.1)).map Prod.fst).isEmpty = true
  · have hfe : cs.store.filter (fun p => globMatch (cs.prefKey pat) p.1) = [] := by
      have := List.isEmpty_iff.mp hks
      exact List.map_eq_nil_iff.mp this
    have hall : ∀ x ∈ cs.store, ¬ (globMatch (cs.prefKey pat) x.1 = true) :=
      fun x hx => by
        intro hg
        have : x ∈ cs.store.filter (fun p => globMatch (cs.prefKey pat) p.1) :=
          List.mem_filter.mpr ⟨hx, hg⟩
        simp [hfe] at this
    have hself : cs.store.filter (fun p => !globMatch (cs.prefKey pat) p.1) = cs.store := by
      apply List.filter_eq_self.mpr
      intro a ha
      simp [hall a ha]
    simp [hks, hself]
  · have heq : storeEraseAll cs.store
        ((cs.store.filter (fun p => globMatch (cs.prefKey pat) p.1)).map Prod.fst) =
        cs.store.filter (fun p => !globMatch (cs.prefKey pat) p.1) := by
      unfold storeEraseAll
      exact List.filter_congr (fun x hx => matchKeys_spec cs.store (cs.prefKey pat) x hx)
    simp [hks, heq]

theorem alookup_storeErase_none (s : List (String × StoredEntry)) (p k : String)
    (h : alookup s k = none) : alookup (storeErase s p) k = none := by
  rw [alookup_storeErase]
  by_cases hk : k = p <;> simp [hk, h]

theorem delete_effect_store (cache : CacheState) (s : List (String × StoredEntry))
    (key : String) (hc : cache.unavailable = false) :
    (CacheService.delete { cache with store := s } key false).2 =
      { cache with store := storeErase s (cache.prefKey key) } :=
  delete_effect { cache with store := s } key hc

/-- C4: in `create`, `update` and `delete`, cache invalidation runs only
after the store-of-record mutation succeeded — when the Prisma mutation
throws, the repository operation propagates the error and returns the
database and the cache exactly unchanged (no invalidation, no cache write on
the error path). -/
theorem repo_mutation_error_leaves_cache_unchanged (db : Db) (cache : CacheState)
    (id id2 : String) (data : UpdateUserDTO) (cdata : CreateUserDTO)
    (newId : String) (f1 f2 f3 : Bool)
    (hu : prismaUpdate db id data f1 = .error ())
    (hc : prismaCreate db cdata newId f2 = .error ())
    (hd : prismaDelete db id2 f3 = .error ()) :
    UserRepository.update db cache id data f1 = (.error (), db, cache) ∧
    UserRepository.create db cache cdata newId f2 = (.error (), db, cache) ∧
    UserRepository.delete db cache id2 f3 = (.error (), db, cache) := by
  refine ⟨?_, ?_, ?_⟩
  · unfold UserRepository.update
    rw [hu]
  · unfold UserRepository.create
    rw [hc]
  · unfold UserRepository.delete
    rw [hd]

/-- Closed witness for C4: updating/deleting a missing user and a failing
insert leave a populated connected cache byte-identical. -/
theorem repo_mutation_error_leaves_cache_unchanged_witness :
    (prismaUpdate [] "1" ⟨none, some "a@b"⟩ false = .error () ∧
      prismaCreate [] ⟨"n", "e@x"⟩ "9" true = .error () ∧
      prismaDelete [] "2" false = .error ()) ∧
    (UserRepository.update [] (⟨true, true, "app", 3600, [("app:user:1", ⟨"c", 9⟩)]⟩ : CacheState) "1" ⟨none, some "a@b"⟩ false =
      (.error (), [], (⟨true, true, "app", 3600, [("app:user:1", ⟨"c", 9⟩)]⟩ : CacheState)) ∧
    UserRepository.create [] (⟨true, true, "app", 3600, [("app:user:1", ⟨"c", 9⟩)]⟩ : CacheState) ⟨"n", "e@x"⟩ "9" true =
      (.error (), [], (⟨true, true, "app", 3600, [("app:user:1", ⟨"c", 9⟩)]⟩ : CacheState)) ∧
    UserRepository.delete [] (⟨true, true, "app", 3600, [("app:user:1", ⟨"c", 9⟩)]⟩ : CacheState) "2" false =
      (.error (), [], (⟨true, true, "app", 3600, [("app:user:1", ⟨"c", 9⟩)]⟩ : CacheState))) :=
  ⟨⟨rfl, rfl, rfl⟩,
    repo_mutation_error_leaves_cache_unchanged []
      (⟨true, true, "app", 3600, [("app:user:1", ⟨"c", 9⟩)]⟩ : CacheState)
      "1" "2" ⟨none, some "a@b"⟩ ⟨"n", "e@x"⟩ "9" false true false
      rfl rfl rfl⟩

theorem invalidateUserCache_spec (cache : CacheState) (userId oe ne : String)
    (hc : cache.unavailable = false) :
    ∃ st : List (String × StoredEntry),
      UserRepository.invalidateUserCache cache userId (some oe) (some ne) = { cache with store := st } ∧
      alookup st (cache.prefKey (CacheService.generateUserKey userId)) = none ∧
      (oe ≠ "" →
        alookup st (cache.prefKey (CacheService.generateUserByEmailKey oe)) = none) ∧
      (ne ≠ "" → ne ≠ oe →
        alookup st (cache.prefKey (CacheService.generateUserByEmailKey ne)) = none) ∧
      (∀ k, k ≠ cache.prefKey (CacheService.generateUserKey userId) →
        k ≠ cache.prefKey (CacheService.generateUserByEmailKey oe) →
        k ≠ cache.prefKey (CacheService.generateUserByEmailKey ne) →
        alookup st k = alookup cache.store k) := by
  unfold UserRepository.invalidateUserCache
  rw [delete_effect cache _ hc]
  dsimp only
  by_cases hn : ne ≠ "" ∧ (some oe : Option String) ≠ some ne <;>
    by_cases ho : oe = ""
  · rw [if_pos hn, if_neg (fun hne => hne ho), delete_effect_store cache _ _ hc]
    refine ⟨_, rfl, ?_, ?_, ?_, ?_⟩
    · exact alookup_storeErase_none _ _ _ (by rw [alookup_storeErase]; simp)
    · intro h; exact absurd ho h
    · intro h1 h2
      rw [alookup_storeErase]
      simp
    · intro k h1 h2 h3
      rw [alookup_storeErase, if_neg h3, alookup_storeErase, if_neg h1]
  · rw [if_pos hn, if_pos ho, delete_effect_store cache _ _ hc,
      delete_effect_store cache _ _ hc]
    refine ⟨_, rfl, ?_, ?_, ?_, ?_⟩
    · refine alookup_storeErase_none _ _ _ (alookup_storeErase_none _ _ _ ?_)
      rw [alookup_storeErase]; simp
    · intro h
      refine alookup_storeErase_none _ _ _ ?_
      rw [alookup_storeErase]; simp
    · intro h1 h2
      rw [alookup_storeErase]; simp
    · intro k h1 h2 h3
      rw [alookup_storeErase, if_neg h3, alookup_storeErase, if_neg h2,
        alookup_storeErase, if_neg h1]
  · rw [if_neg hn, if_neg (fun hne => hne ho)]
    refine ⟨_, rfl, ?_, ?_, ?_, ?_⟩
    · rw [alookup_storeErase]; simp
    · intro h; exact absurd ho h
    · intro h1 h2
      exact absurd ⟨h1, fun e => h2 (Option.some_injective _ e).symm⟩ hn
    · intro k h1 h2 h3
      rw [alookup_storeErase, if_neg h1]
  · rw [if_neg hn, if_pos ho, delete_effect_store cache _ _ hc]
    refine ⟨_, rfl, ?_, ?_, ?_, ?_⟩
    · refine alookup_storeErase_none _ _ _ ?_
      rw [alookup_storeErase]; simp
    · intro h
      rw [alookup_storeErase]; simp
    · intro h1 h2
      exact absurd ⟨h1, fun e => h2 (Option.some_injective _ e).symm⟩ hn
    · intro k h1 h2 h3
      rw [alookup_storeErase, if_neg h2, alookup_storeErase, if_neg h1]

/-- C3 (amended): with the cache backend connected and the user present in
the store of record, after `update(id, data)` completes: the by-id key is
deleted; the by-email key of the previous email is deleted provided that
email is nonempty (a JS-falsy empty previous email is skipped by the
invalidation helper); the by-email key of the new email is deleted when it
is nonempty and differs from the old one; every key matching the prefixed
`users:list:*` pattern is deleted; and every other key of the cache is left
untouched. -/
theorem update_invalidates_user_and_list_keys (db : Db) (cache : CacheState)
    (id : String) (data : UpdateUserDTO) (u : UserRec)
    (hconn : cache.unavailable = false)
    (hfind : alookup db id = some u) :
    ∃ result : UserRec, ∃ db' : Db, ∃ cache' : CacheState,
      UserRepository.update db cache id data false = (.ok result, db', cache') ∧
      result.email = data.email.getD u.email ∧
      alookup cache'.store (cache.prefKey (CacheService.generateUserKey id)) = none ∧
      (u.email ≠ "" → alookup cache'.store (cache.prefKey (CacheService.generateUserByEmailKey u.email)) = none) ∧
      (result.email ≠ "" → result.email ≠ u.email → alookup cache'.store (cache.prefKey (CacheService.generateUserByEmailKey result.email)) = none) ∧
      (∀ k, globMatch (cache.prefKey "users:list:*") k = true →
        alookup cache'.store k = none) ∧
      (∀ k, k ≠ cache.prefKey (CacheService.generateUserKey id) →
        k ≠ cache.prefKey (CacheService.generateUserByEmailKey u.email) →
        k ≠ cache.prefKey (CacheService.generateUserByEmailKey result.email) →
        globMatch (cache.prefKey "users:list:*") k = false →
        alookup cache'.store k = alookup cache.store k) := by
  obtain ⟨st, hstate, hA, hB, hC, hE⟩ :=
    invalidateUserCache_spec cache id u.email (data.email.getD u.email) hconn
  have hupd : UserRepository.update db cache id data false =
      (.ok (⟨data.name.getD u.name, data.email.getD u.email⟩ : UserRec),
        (id, (⟨data.name.getD u.name, data.email.getD u.email⟩ : UserRec)) :: db.filter (fun p => decide (p.1 ≠ id)),
        UserRepository.invalidateUsersListCache (UserRepository.invalidateUserCache cache id (some u.email) (some (data.email.getD u.email)))) := by
    unfold UserRepository.update prismaUpdate prismaFindUnique
    rw [hfind]
    rfl
  rw [hstate] at hupd
  have hpe : UserRepository.invalidateUsersListCache { cache with store := st } =
      { cache with store := st.filter (fun p => !globMatch (cache.prefKey "users:list:*") p.1) } := by
    unfold UserRepository.invalidateUsersListCache
    exact deletePattern_effect { cache with store := st } _ hconn
  rw [hpe] at hupd
  refine ⟨_, _, _, hupd, rfl, ?_, ?_, ?_, ?_, ?_⟩
  · rw [alookup_filterNotGlob]
    by_cases hg : globMatch (cache.prefKey "users:list:*")
      (cache.prefKey (CacheService.generateUserKey id)) = true <;> simp [hg, hA]
  · intro h
    rw [alookup_filterNotGlob]
    by_cases hg : globMatch (cache.prefKey "users:list:*")
      (cache.prefKey (CacheService.generateUserByEmailKey u.email)) = true <;>
      simp [hg, hB h]
  · intro h1 h2
    rw [alookup_filterNotGlob]
    by_cases hg : globMatch (cache.prefKey "users:list:*")
      (cache.prefKey (CacheService.generateUserByEmailKey (data.email.getD u.email))) = true <;>
      simp [hg, hC h1 h2]
  · intro k hg
    rw [alookup_filterNotGlob, if_pos hg]
  · intro k h1 h2 h3 hg
    rw [alookup_filterNotGlob, if_neg (by simp [hg])]
    exact hE k h1 h2 h3

/-- Counterexample to C3 as stated: a user whose previous email is the empty
string. The empty string is JS-falsy, so `invalidateUserCache` skips the
old-email key `user:email:` and a stale cached entry for it survives the
update, although the update completed and changed the email. -/
theorem update_keeps_stale_empty_email_key :
    (UserRepository.update [("1", ⟨"John", ""⟩)]
        (⟨true, true, "app", 3600, [("app:user:email:", ⟨"stale", 900⟩)]⟩ : CacheState)
        "1" ⟨none, some "jane@x"⟩ false).1 = .ok ⟨"John", "jane@x"⟩ ∧
    alookup (UserRepository.update [("1", ⟨"John", ""⟩)]
        (⟨true, true, "app", 3600, [("app:user:email:", ⟨"stale", 900⟩)]⟩ : CacheState)
        "1" ⟨none, some "jane@x"⟩ false).2.2.store "app:user:email:" =
      some ⟨"stale", 900⟩ := by
  constructor
  · rfl
  · rfl

/-- Closed witness for the amended C3 at a concrete connected cache holding a
users-list key, with an email-changing update. -/
theorem update_invalidates_user_and_list_keys_witness :
    ((⟨true, true, "app", 3600, [("app:users:list:all", ⟨"L", 300⟩)]⟩ : CacheState).unavailable = false ∧
      alookup [("1", (⟨"J", "a@b"⟩ : UserRec))] "1" = some ⟨"J", "a@b"⟩) ∧
    (∃ result : UserRec, ∃ db' : Db, ∃ cache' : CacheState,
      UserRepository.update [("1", ⟨"J", "a@b"⟩)]
          (⟨true, true, "app", 3600, [("app:users:list:all", ⟨"L", 300⟩)]⟩ : CacheState)
          "1" ⟨none, some "c@d"⟩ false = (.ok result, db', cache') ∧
      result.email = (some "c@d").getD (⟨"J", "a@b"⟩ : UserRec).email ∧
      alookup cache'.store ((⟨true, true, "app", 3600, [("app:users:list:all", ⟨"L", 300⟩)]⟩ : CacheState).prefKey (CacheService.generateUserKey "1")) = none ∧
      ((⟨"J", "a@b"⟩ : UserRec).email ≠ "" → alookup cache'.store ((⟨true, true, "app", 3600, [("app:users:list:all", ⟨"L", 300⟩)]⟩ : CacheState).prefKey (CacheService.generateUserByEmailKey (⟨"J", "a@b"⟩ : UserRec).email)) = none) ∧
      (result.email ≠ "" → result.email ≠ (⟨"J", "a@b"⟩ : UserRec).email → alookup cache'.store ((⟨true, true, "app", 3600, [("app:users:list:all", ⟨"L", 300⟩)]⟩ : CacheState).prefKey (CacheService.generateUserByEmailKey result.email)) = none) ∧
      (∀ k, globMatch ((⟨true, true, "app", 3600, [("app:users:list:all", ⟨"L", 300⟩)]⟩ : CacheState).prefKey "users:list:*") k = true →
        alookup cache'.store k = none) ∧
      (∀ k, k ≠ (⟨true, true, "app", 3600, [("app:users:list:all", ⟨"L", 300⟩)]⟩ : CacheState).prefKey (CacheService.generateUserKey "1") →
        k ≠ (⟨true, true, "app", 3600, [("app:users:list:all", ⟨"L", 300⟩)]⟩ : CacheState).prefKey (CacheService.generateUserByEmailKey (⟨"J", "a@b"⟩ : UserRec).email) →
        k ≠ (⟨true, true, "app", 3600, [("app:users:list:all", ⟨"L", 300⟩)]⟩ : CacheState).prefKey (CacheService.generateUserByEmailKey result.email) →
        globMatch ((⟨true, true, "app", 3600, [("app:users:list:all", ⟨"L", 300⟩)]⟩ : CacheState).prefKey "users:list:*") k = false →
        alookup cache'.store k = alookup (⟨true, true, "app", 3600, [("app:users:list:all", ⟨"L", 300⟩)]⟩ : CacheState).store k)) :=
  ⟨⟨by decide, by decide⟩,
    update_invalidates_user_and_list_keys [("1", ⟨"J", "a@b"⟩)]
      (⟨true, true, "app", 3600, [("app:users:list:all", ⟨"L", 300⟩)]⟩ : CacheState)
      "1" ⟨none, some "c@d"⟩ ⟨"J", "a@b"⟩ (by decide) (by decide)⟩
